import Mathlib

/-! Precon front end: the bootstrap module `frontend/src/main.js`.

`main.js` is an ES module of 24 lines: seven import declarations followed by
two statements.  The development below embeds one evaluation of that module
as a function from a host (the imported functions and the state they act on)
to the trace of effects the module requests, the final host state and the
completion (normal or abrupt).

* Import declarations are evaluated in source order, all of them before the
  first statement of the module body.
* Every external call is synchronous: it is entered, then it returns a value
  or throws.  A throw ends the evaluation of the module; `main.js` has no
  `try`.
* JavaScript values that the module only passes around are elements of one
  type `V`; thrown values are elements of `E`; host states of `S`.
-/

namespace Precon

/-! ## Data model -/

/-- An import declaration: the module specifier and the local names it binds
(none for a declaration of the form `import "m";`). -/
structure ImportDecl where
  specifier : String
  bindings : List String
  deriving DecidableEq

/-- The `theme` object of the literal, lines 12-14. -/
structure ThemeOptions where
  defaultTheme : String
  deriving DecidableEq

/-- The `icons` object of the literal, lines 15-21.  The `sets` object is a
table from set name to set, kept as the list of its own properties in the
order they are written. -/
structure IconOptions (V : Type) where
  defaultSet : String
  aliases : V
  sets : List (String × V)
  deriving DecidableEq

/-- The object passed to `createVuetify`, lines 11-22. -/
structure VuetifyOptions (V : Type) where
  theme : ThemeOptions
  icons : IconOptions V
  deriving DecidableEq

/-- The two bindings imported from `"vuetify/iconsets/mdi"` on line 6. -/
structure IconSetModule (V : Type) where
  aliases : V
  mdi : V
  deriving DecidableEq

/-- The calls `main.js` makes into imported code. -/
inductive Call (V : Type) where
  | createVuetify (options : VuetifyOptions V)
  | createApp (rootComponent : V)
  | use (receiver plugin : V)
  | mount (receiver : V) (selector : String)
  deriving DecidableEq

/-- One observable effect of evaluating the module. -/
inductive Event (V E : Type) where
  /-- The module requested by an import declaration has been evaluated. -/
  | evaluated (d : ImportDecl)
  /-- The object literal of lines 11-22 has been evaluated. -/
  | built (options : VuetifyOptions V)
  /-- An imported function or a method is entered. -/
  | call (c : Call V)
  /-- The pending call returned. -/
  | returned (v : V)
  /-- The pending module evaluation or call threw. -/
  | threw (e : E)
  deriving DecidableEq

/-- The host of one run: what the imported modules do when evaluated, the
root component bound by line 9, and the behaviour of the four functions the
body calls.  Each operation may read and change the host state and either
yields a value or throws. -/
structure Host (S V E : Type) where
  evaluate : String → S → Except E Unit × S
  App : V
  createVuetify : VuetifyOptions V → S → Except E V × S
  createApp : V → S → Except E V × S
  use : V → V → S → Except E V × S
  mount : V → String → S → Except E V × S

/-- The outcome of evaluating a piece of the module from some host state. -/
structure Run (S V E α : Type) where
  trace : List (Event V E)
  state : S
  result : Except E α

/-- A computation of the module: from a host state to a run. -/
def Boot (S V E α : Type) : Type := S → Run S V E α

/-! ## Sequencing -/

/-- Normal completion with a value and no effect. -/
def Boot.pure {S V E α : Type} (a : α) : Boot S V E α :=
  fun s => ⟨[], s, .ok a⟩

/-- Sequential composition: the second computation starts from the state the
first one left, and only when the first one completed normally. -/
def Boot.bind {S V E α β : Type} (m : Boot S V E α) (f : α → Boot S V E β) :
    Boot S V E β :=
  fun s =>
    let r := m s
    match r.result with
    | .error e => ⟨r.trace, r.state, .error e⟩
    | .ok a =>
      let r2 := f a r.state
      ⟨r.trace ++ r2.trace, r2.state, r2.result⟩

instance {S V E : Type} : Monad (Boot S V E) where
  pure := Boot.pure
  bind := Boot.bind

/-- Record one event. -/
def emit {S V E : Type} (ev : Event V E) : Boot S V E Unit :=
  fun s => ⟨[ev], s, .ok ()⟩

/-- The host operation a call denotes. -/
def Host.perform {S V E : Type} (h : Host S V E) : Call V → S → Except E V × S
  | .createVuetify options => h.createVuetify options
  | .createApp rootComponent => h.createApp rootComponent
  | .use receiver plugin => h.use receiver plugin
  | .mount receiver selector => h.mount receiver selector

/-- A synchronous call: it is entered, the host operation runs, and the call
either returns its value or throws. -/
def invoke {S V E : Type} (h : Host S V E) (c : Call V) : Boot S V E V :=
  fun s =>
    match h.perform c s with
    | (.ok v, s1) => ⟨[.call c, .returned v], s1, .ok v⟩
    | (.error e, s1) => ⟨[.call c, .threw e], s1, .error e⟩

/-- Evaluation of the module requested by one import declaration. -/
def importModule {S V E : Type} (h : Host S V E) (d : ImportDecl) : Boot S V E Unit :=
  fun s =>
    match h.evaluate d.specifier s with
    | (.ok _, s1) => ⟨[.evaluated d], s1, .ok ()⟩
    | (.error e, s1) => ⟨[.threw e], s1, .error e⟩

/-- Evaluation of a list of import declarations, in the order given. -/
def importAll {S V E : Type} (h : Host S V E) : List ImportDecl → Boot S V E Unit
  | [] => Boot.pure ()
  | d :: ds => Boot.bind (importModule h d) (fun _ => importAll h ds)

/-! ## The module `main.js` -/

/-- The import declarations of lines 1-9, in source order. -/
def imports : List ImportDecl :=
  [ ⟨"./styles.css", []⟩,
    ⟨"vuetify/styles", []⟩,
    ⟨"vue", ["createApp"]⟩,
    ⟨"vuetify", ["createVuetify"]⟩,
    ⟨"vuetify/iconsets/mdi", ["aliases", "mdi"]⟩,
    ⟨"@mdi/font/css/materialdesignicons.css", []⟩,
    ⟨"./App.vue", ["App"]⟩ ]

/-- The object literal of lines 11-22; `aliases` and `mdi` are shorthand
properties holding the values of the imported bindings of the same name. -/
def vuetifyOptions {V : Type} (icons : IconSetModule V) : VuetifyOptions V :=
  { theme := { defaultTheme := "dark" }
    icons :=
      { defaultSet := "mdi"
        aliases := icons.aliases
        sets := [("mdi", icons.mdi)] } }

/-- The module body, lines 11-24. -/
def body {S V E : Type} (icons : IconSetModule V) (h : Host S V E) : Boot S V E Unit := do
  let options := vuetifyOptions icons
  emit (.built options)
  let vuetify ← invoke h (.createVuetify options)
  let app ← invoke h (.createApp h.App)
  let installed ← invoke h (.use app vuetify)
  let _ ← invoke h (.mount installed "#app")
  pure ()

/-- One evaluation of `main.js`: the requested modules first, then the body. -/
def main {S V E : Type} (icons : IconSetModule V) (h : Host S V E) : Boot S V E Unit := do
  importAll h imports
  body icons h

/-! ## Observations on traces -/

/-- The nominal trace of a run in which nothing throws, given the values the
four calls return. -/
def script {V E : Type} (icons : IconSetModule V) (root vuetify app installed mounted : V) :
    List (Event V E) :=
  imports.map .evaluated ++
    [ .built (vuetifyOptions icons),
      .call (.createVuetify (vuetifyOptions icons)), .returned vuetify,
      .call (.createApp root), .returned app,
      .call (.use app vuetify), .returned installed,
      .call (.mount installed "#app"), .returned mounted ]

/-- The event is the completed evaluation of a module imported for its side
effects only (`import "m";`) under the specifier `css`: a stylesheet
registration. -/
def Event.isRegistration {V E : Type} (css : String) : Event V E → Bool
  | .evaluated d => d.specifier == css && d.bindings.isEmpty
  | _ => false

/-- The event is the evaluation of the object literal. -/
def Event.isBuilt {V E : Type} : Event V E → Bool
  | .built _ => true
  | _ => false

/-- The event is the entry of a call to `createVuetify`. -/
def Event.isCreateVuetify {V E : Type} : Event V E → Bool
  | .call (.createVuetify _) => true
  | _ => false

/-- The event is the entry of a call to `createApp`. -/
def Event.isCreateApp {V E : Type} : Event V E → Bool
  | .call (.createApp _) => true
  | _ => false

/-- The event is the entry of a call to the method `use`. -/
def Event.isUse {V E : Type} : Event V E → Bool
  | .call (.use _ _) => true
  | _ => false

/-- The event is the entry of a call to the method `mount`. -/
def Event.isMount {V E : Type} : Event V E → Bool
  | .call (.mount _ _) => true
  | _ => false

/-- The event is the entry of any call. -/
def Event.isCall {V E : Type} : Event V E → Bool
  | .call _ => true
  | _ => false

/-- The event ends a pending call: a return or a throw. -/
def Event.isCompletion {V E : Type} : Event V E → Bool
  | .returned _ => true
  | .threw _ => true
  | _ => false

/-- The event is a throw. -/
def Event.isThrew {V E : Type} : Event V E → Bool
  | .threw _ => true
  | _ => false

/-- Every occurrence of `q` in the trace has an occurrence of `p` at a
strictly smaller position. -/
def Precedes {α : Type} (p q : α → Bool) (t : List α) : Prop :=
  ∀ (j : Nat) (y : α), t[j]? = some y → q y = true →
    ∃ (i : Nat) (x : α), i < j ∧ t[i]? = some x ∧ p x = true

/-- Every occurrence of `p` in the trace is at a strictly smaller position
than every occurrence of `q`. -/
def AllBefore {α : Type} (p q : α → Bool) (t : List α) : Prop :=
  ∀ (i j : Nat) (x y : α), t[i]? = some x → p x = true → t[j]? = some y → q y = true → i < j

/-- Every call entered in the trace is completed by the very next event, so
no call is entered while another is pending. -/
def CallsComplete {V E : Type} (t : List (Event V E)) : Prop :=
  ∀ (j : Nat) (c : Call V), t[j]? = some (.call c) →
    ∃ x, t[j + 1]? = some x ∧ x.isCompletion = true

/-- The occurrences of `p` come strictly before those of `q`: each occurrence of
`q` has an occurrence of `p` before it, and no occurrence of `p` is at or
after an occurrence of `q`. -/
def Before {α : Type} (p q : α → Bool) (t : List α) : Prop :=
  Precedes p q t ∧ AllBefore p q t

/-- Some event of the trace satisfies `p`. -/
def Occurs {α : Type} (p : α → Bool) (t : List α) : Prop :=
  ∃ x, x ∈ t ∧ p x = true

/-- Executable form of `Precedes`. -/
def precedesB {α : Type} (p q : α → Bool) : List α → Bool
  | [] => true
  | x :: xs => !q x && (p x || precedesB p q xs)

/-- Executable form of `AllBefore`. -/
def allBeforeB {α : Type} (p q : α → Bool) : List α → Bool
  | [] => true
  | x :: xs => (!q x || (!p x && xs.all (fun y => !p y))) && allBeforeB p q xs

/-- Executable form of `Before`. -/
def beforeB {α : Type} (p q : α → Bool) (t : List α) : Bool :=
  precedesB p q t && allBeforeB p q t

/-- Executable form of `CallsComplete`. -/
def callsCompleteB {V E : Type} : List (Event V E) → Bool
  | [] => true
  | [x] => !x.isCall
  | x :: y :: rest => (!x.isCall || y.isCompletion) && callsCompleteB (y :: rest)

/-- The stylesheets registered in a trace, in order: the specifiers of the
side-effect-only imports that were evaluated. -/
def registered {V E : Type} (t : List (Event V E)) : List String :=
  t.filterMap fun
    | .evaluated d => if d.bindings.isEmpty then some d.specifier else none
    | _ => none

/-- The option objects with which `createVuetify` is entered in a trace. -/
def configurations {V E : Type} (t : List (Event V E)) : List (VuetifyOptions V) :=
  t.filterMap fun
    | .call (.createVuetify o) => some o
    | _ => none

/-- Renaming of the values inside an icon-set module. -/
def IconSetModule.map {V W : Type} (f : V → W) (icons : IconSetModule V) : IconSetModule W :=
  { aliases := f icons.aliases, mdi := f icons.mdi }

/-- Renaming of the values inside an option object. -/
def VuetifyOptions.map {V W : Type} (f : V → W) (o : VuetifyOptions V) : VuetifyOptions W :=
  { theme := o.theme
    icons :=
      { defaultSet := o.icons.defaultSet
        aliases := f o.icons.aliases
        sets := o.icons.sets.map fun kv => (kv.1, f kv.2) } }

/-! ## Sample hosts

Values are numbers, thrown values are messages, and the host state is the
document: the list of attachments made so far, newest first. -/

/-- The icon-set module used in the samples. -/
def sampleIcons : IconSetModule Nat :=
  { aliases := 10, mdi := 11 }

/-- A host in which every operation succeeds; `mount` attaches the
application under the selected element. -/
def pageHost : Host (List (String × Nat)) Nat String where
  evaluate := fun _ s => (.ok (), s)
  App := 1
  createVuetify := fun _ s => (.ok 2, s)
  createApp := fun _ s => (.ok 3, s)
  use := fun app _ s => (.ok app, s)
  mount := fun app selector s => (.ok 4, (selector, app) :: s)

/-- A host whose document has no element `app`: `mount` throws and leaves the
document as it was. -/
def bareHost : Host (List (String × Nat)) Nat String where
  evaluate := fun _ s => (.ok (), s)
  App := 1
  createVuetify := fun _ s => (.ok 2, s)
  createApp := fun _ s => (.ok 3, s)
  use := fun app _ s => (.ok app, s)
  mount := fun _ _ s => (.error "mount target not found", s)

/-- A host in which `createVuetify` throws. -/
def brokenHost : Host (List (String × Nat)) Nat String where
  evaluate := fun _ s => (.ok (), s)
  App := 1
  createVuetify := fun _ s => (.error "vuetify failed", s)
  createApp := fun _ s => (.ok 3, s)
  use := fun app _ s => (.ok app, s)
  mount := fun app selector s => (.ok 4, (selector, app) :: s)

/-! ## Shape of a run -/

/-- The five ways the module body can go from a given state: one of the four
calls throws, or all four return. -/
theorem body_cases {S V E : Type} (icons : IconSetModule V) (h : Host S V E) (s : S) :
    (∃ e s1, h.createVuetify (vuetifyOptions icons) s = (.error e, s1) ∧
      body icons h s = ⟨[.built (vuetifyOptions icons),
        .call (.createVuetify (vuetifyOptions icons)), .threw e], s1, .error e⟩) ∨
    (∃ v s1 e s2, h.createVuetify (vuetifyOptions icons) s = (.ok v, s1) ∧
      h.createApp h.App s1 = (.error e, s2) ∧
      body icons h s = ⟨[.built (vuetifyOptions icons),
        .call (.createVuetify (vuetifyOptions icons)), .returned v,
        .call (.createApp h.App), .threw e], s2, .error e⟩) ∨
    (∃ v s1 a s2 e s3, h.createVuetify (vuetifyOptions icons) s = (.ok v, s1) ∧
      h.createApp h.App s1 = (.ok a, s2) ∧ h.use a v s2 = (.error e, s3) ∧
      body icons h s = ⟨[.built (vuetifyOptions icons),
        .call (.createVuetify (vuetifyOptions icons)), .returned v,
        .call (.createApp h.App), .returned a,
        .call (.use a v), .threw e], s3, .error e⟩) ∨
    (∃ v s1 a s2 u s3 e s4, h.createVuetify (vuetifyOptions icons) s = (.ok v, s1) ∧
      h.createApp h.App s1 = (.ok a, s2) ∧ h.use a v s2 = (.ok u, s3) ∧
      h.mount u "#app" s3 = (.error e, s4) ∧
      body icons h s = ⟨[.built (vuetifyOptions icons),
        .call (.createVuetify (vuetifyOptions icons)), .returned v,
        .call (.createApp h.App), .returned a,
        .call (.use a v), .returned u,
        .call (.mount u "#app"), .threw e], s4, .error e⟩) ∨
    (∃ v s1 a s2 u s3 m s4, h.createVuetify (vuetifyOptions icons) s = (.ok v, s1) ∧
      h.createApp h.App s1 = (.ok a, s2) ∧ h.use a v s2 = (.ok u, s3) ∧
      h.mount u "#app" s3 = (.ok m, s4) ∧
      body icons h s = ⟨[.built (vuetifyOptions icons),
        .call (.createVuetify (vuetifyOptions icons)), .returned v,
        .call (.createApp h.App), .returned a,
        .call (.use a v), .returned u,
        .call (.mount u "#app"), .returned m], s4, .ok ()⟩) := by
  rcases h1 : h.createVuetify (vuetifyOptions icons) s with ⟨e | v, s1⟩
  · exact Or.inl ⟨e, s1, rfl, by
      simp [body, bind, Boot.bind, emit, invoke, Host.perform, pure, Boot.pure, h1]⟩
  rcases h2 : h.createApp h.App s1 with ⟨e | a, s2⟩
  · exact Or.inr (Or.inl ⟨v, s1, e, s2, rfl, h2, by
      simp [body, bind, Boot.bind, emit, invoke, Host.perform, pure, Boot.pure, h1, h2]⟩)
  rcases h3 : h.use a v s2 with ⟨e | u, s3⟩
  · exact Or.inr (Or.inr (Or.inl ⟨v, s1, a, s2, e, s3, rfl, h2, h3, by
      simp [body, bind, Boot.bind, emit, invoke, Host.perform, pure, Boot.pure, h1, h2, h3]⟩))
  rcases h4 : h.mount u "#app" s3 with ⟨e | m, s4⟩
  · exact Or.inr (Or.inr (Or.inr (Or.inl ⟨v, s1, a, s2, u, s3, e, s4, rfl, h2, h3, h4, by
      simp [body, bind, Boot.bind, emit, invoke, Host.perform, pure, Boot.pure,
        h1, h2, h3, h4]⟩)))
  · exact Or.inr (Or.inr (Or.inr (Or.inr ⟨v, s1, a, s2, u, s3, m, s4, rfl, h2, h3, h4, by
      simp [body, bind, Boot.bind, emit, invoke, Host.perform, pure, Boot.pure,
        h1, h2, h3, h4]⟩)))

/-- Module evaluation either goes through the whole list or stops at the first
module that throws. -/
theorem importAll_cases {S V E : Type} (h : Host S V E) (ds : List ImportDecl) (s : S) :
    (importAll h ds s).result = .ok () ∧ (importAll h ds s).trace = ds.map .evaluated ∨
    ∃ k e, k < ds.length ∧ (importAll h ds s).result = .error e ∧
      (importAll h ds s).trace = (ds.take k).map .evaluated ++ [.threw e] := by
  induction ds generalizing s with
  | nil => left; simp [importAll, Boot.pure]
  | cons d ds ih =>
    simp only [importAll, Boot.bind, importModule]
    rcases h1 : h.evaluate d.specifier s with ⟨_ | _, s1⟩
    · right; exact ⟨0, _, by simp, rfl, by simp⟩
    · rcases ih s1 with ⟨h2, h3⟩ | ⟨k, e, hk, h2, h3⟩
      · left; simp [h2, h3]
      · right; exact ⟨k + 1, e, by simpa using hk, by simp [h2], by simp [h3]⟩


/-- The check `precedesB` is sound for `Precedes`. -/
theorem precedes_of_precedesB {α : Type} (p q : α → Bool) (t : List α)
    (hb : precedesB p q t = true) : Precedes p q t := by
  induction t with
  | nil => intro j y hj; simp at hj
  | cons x xs ih =>
    simp only [precedesB, Bool.and_eq_true, Bool.not_eq_true', Bool.or_eq_true] at hb
    intro j y hj hq
    cases j with
    | zero =>
      simp at hj
      subst hj
      simp [hb.1] at hq
    | succ j =>
      simp at hj
      rcases hb.2 with hp | hrest
      · exact ⟨0, x, by omega, by simp, hp⟩
      · obtain ⟨i, z, hi, hz, hpz⟩ := ih hrest j y hj hq
        exact ⟨i + 1, z, by omega, by simpa using hz, hpz⟩

/-- The check `allBeforeB` is sound for `AllBefore`. -/
theorem allBefore_of_allBeforeB {α : Type} (p q : α → Bool) (t : List α)
    (hb : allBeforeB p q t = true) : AllBefore p q t := by
  induction t with
  | nil => intro i j x y hi; simp at hi
  | cons a as ih =>
    simp only [allBeforeB, Bool.and_eq_true, Bool.or_eq_true, Bool.not_eq_true',
      List.all_eq_true] at hb
    intro i j x y hi hp hj hq
    cases j with
    | zero =>
      simp at hj
      subst hj
      rcases hb.1 with hqa | ⟨hpa, hall⟩
      · simp [hqa] at hq
      · cases i with
        | zero => simp at hi; subst hi; simp [hpa] at hp
        | succ i =>
          simp at hi
          have := hall x (List.getElem?_mem hi)
          simp [hp] at this
    | succ j =>
      cases i with
      | zero => omega
      | succ i =>
        simp at hi hj
        have := ih hb.2 i j x y hi hp hj hq
        omega

/-- The check `callsCompleteB` is sound for `CallsComplete`. -/
theorem callsComplete_of_callsCompleteB {V E : Type} (t : List (Event V E))
    (hb : callsCompleteB t = true) : CallsComplete t := by
  induction t with
  | nil => intro j c hj; simp at hj
  | cons a as ih =>
    cases as with
    | nil =>
      intro j c hj
      cases j with
      | zero => simp at hj; subst hj; simp [callsCompleteB, Event.isCall] at hb
      | succ j => simp at hj
    | cons b bs =>
      simp only [callsCompleteB, Bool.and_eq_true, Bool.or_eq_true, Bool.not_eq_true'] at hb
      intro j c hj
      cases j with
      | zero =>
        simp at hj; subst hj
        rcases hb.1 with h1 | h1
        · simp [Event.isCall] at h1
        · exact ⟨b, by simp, h1⟩
      | succ j =>
        simp only [List.getElem?_cons_succ] at hj
        obtain ⟨x, hx, hc⟩ := ih hb.2 j c hj
        exact ⟨x, by simpa using hx, hc⟩

/-- A run of `main.js` either stops while evaluating the imports or is the
evaluation of the imports followed by the body. -/
theorem main_cases {S V E : Type} (icons : IconSetModule V) (h : Host S V E) (s : S) :
    (∃ k e, k < imports.length ∧ (importAll h imports s).result = .error e ∧
      (main icons h s).result = .error e ∧
      (main icons h s).state = (importAll h imports s).state ∧
      (main icons h s).trace = (imports.take k).map .evaluated ++ [.threw e]) ∨
    ((importAll h imports s).result = .ok () ∧
      main icons h s =
        ⟨imports.map .evaluated ++ (body icons h (importAll h imports s).state).trace,
          (body icons h (importAll h imports s).state).state,
          (body icons h (importAll h imports s).state).result⟩) := by
  rcases importAll_cases h imports s with ⟨h1, h2⟩ | ⟨k, e, hk, h1, h2⟩
  · right
    refine ⟨h1, ?_⟩
    simp only [main, bind, Boot.bind, h1, h2]
  · left
    refine ⟨k, e, hk, h1, ?_, ?_, ?_⟩ <;> simp only [main, bind, Boot.bind, h1, h2]

/-- The six shapes of the trace and result of a run of `main.js`. -/
theorem main_trace_cases {S V E : Type} (icons : IconSetModule V) (h : Host S V E) (s : S) :
    (∃ k e, k < imports.length ∧ (main icons h s).result = .error e ∧
      (main icons h s).trace = (imports.take k).map .evaluated ++ [.threw e]) ∨
    (∃ e, (main icons h s).result = .error e ∧
      (main icons h s).trace = imports.map .evaluated ++
        [.built (vuetifyOptions icons), .call (.createVuetify (vuetifyOptions icons)),
          .threw e]) ∨
    (∃ v e, (main icons h s).result = .error e ∧
      (main icons h s).trace = imports.map .evaluated ++
        [.built (vuetifyOptions icons), .call (.createVuetify (vuetifyOptions icons)),
          .returned v, .call (.createApp h.App), .threw e]) ∨
    (∃ v a e, (main icons h s).result = .error e ∧
      (main icons h s).trace = imports.map .evaluated ++
        [.built (vuetifyOptions icons), .call (.createVuetify (vuetifyOptions icons)),
          .returned v, .call (.createApp h.App), .returned a, .call (.use a v), .threw e]) ∨
    (∃ v a u e, (main icons h s).result = .error e ∧
      (main icons h s).trace = imports.map .evaluated ++
        [.built (vuetifyOptions icons), .call (.createVuetify (vuetifyOptions icons)),
          .returned v, .call (.createApp h.App), .returned a, .call (.use a v),
          .returned u, .call (.mount u "#app"), .threw e]) ∨
    (∃ v a u m, (main icons h s).result = .ok () ∧
      (main icons h s).trace = script icons h.App v a u m) := by
  rcases main_cases icons h s with ⟨k, e, hk, _, h1, _, h2⟩ | ⟨_, hm⟩
  · exact Or.inl ⟨k, e, hk, h1, h2⟩
  · right
    rcases body_cases icons h (importAll h imports s).state with
      ⟨e, s1, _, hb⟩ | ⟨v, s1, e, s2, _, _, hb⟩ | ⟨v, s1, a, s2, e, s3, _, _, _, hb⟩ |
      ⟨v, s1, a, s2, u, s3, e, s4, _, _, _, _, hb⟩ |
      ⟨v, s1, a, s2, u, s3, m, s4, _, _, _, _, hb⟩
    · exact Or.inl ⟨e, by rw [hm, hb], by rw [hm, hb]⟩
    · exact Or.inr (Or.inl ⟨v, e, by rw [hm, hb], by rw [hm, hb]⟩)
    · exact Or.inr (Or.inr (Or.inl ⟨v, a, e, by rw [hm, hb], by rw [hm, hb]⟩))
    · exact Or.inr (Or.inr (Or.inr (Or.inl ⟨v, a, u, e, by rw [hm, hb], by rw [hm, hb]⟩)))
    · exact Or.inr (Or.inr (Or.inr (Or.inr ⟨v, a, u, m, by rw [hm, hb], by rw [hm, hb]; rfl⟩)))

/-- The check `beforeB` is sound for `Before`. -/
theorem before_of_beforeB {α : Type} (p q : α → Bool) (t : List α)
    (hb : beforeB p q t = true) : Before p q t := by
  simp only [beforeB, Bool.and_eq_true] at hb
  exact ⟨precedes_of_precedesB p q t hb.1, allBefore_of_allBeforeB p q t hb.2⟩

/-- Every trace of `main.js` passes a check that the nominal trace and each of
its interrupted forms pass. -/
theorem trace_check {S V E : Type} (icons : IconSetModule V) (h : Host S V E) (s : S)
    (chk : List (Event V E) → Bool)
    (h0 : ∀ k e, k < imports.length →
      chk ((imports.take k).map .evaluated ++ [.threw e]) = true)
    (h1 : ∀ e, chk (imports.map .evaluated ++
      [.built (vuetifyOptions icons), .call (.createVuetify (vuetifyOptions icons)),
        .threw e]) = true)
    (h2 : ∀ v e, chk (imports.map .evaluated ++
      [.built (vuetifyOptions icons), .call (.createVuetify (vuetifyOptions icons)),
        .returned v, .call (.createApp h.App), .threw e]) = true)
    (h3 : ∀ v a e, chk (imports.map .evaluated ++
      [.built (vuetifyOptions icons), .call (.createVuetify (vuetifyOptions icons)),
        .returned v, .call (.createApp h.App), .returned a, .call (.use a v),
        .threw e]) = true)
    (h4 : ∀ v a u e, chk (imports.map .evaluated ++
      [.built (vuetifyOptions icons), .call (.createVuetify (vuetifyOptions icons)),
        .returned v, .call (.createApp h.App), .returned a, .call (.use a v),
        .returned u, .call (.mount u "#app"), .threw e]) = true)
    (h5 : ∀ v a u m, chk (script icons h.App v a u m) = true) :
    chk (main icons h s).trace = true := by
  rcases main_trace_cases icons h s with ⟨k, e, hk, _, ht⟩ | ⟨e, _, ht⟩ | ⟨v, e, _, ht⟩ |
    ⟨v, a, e, _, ht⟩ | ⟨v, a, u, e, _, ht⟩ | ⟨v, a, u, m, _, ht⟩
  · rw [ht]; exact h0 k e hk
  · rw [ht]; exact h1 e
  · rw [ht]; exact h2 v e
  · rw [ht]; exact h3 v a e
  · rw [ht]; exact h4 v a u e
  · rw [ht]; exact h5 v a u m

/-- A run that completes normally has the nominal trace. -/
theorem trace_of_ok {S V E : Type} (icons : IconSetModule V) (h : Host S V E) (s : S)
    (hok : (main icons h s).result = .ok ()) :
    ∃ v a u m, (main icons h s).trace = script icons h.App v a u m := by
  rcases main_trace_cases icons h s with ⟨k, e, _, hr, _⟩ | ⟨e, hr, _⟩ | ⟨v, e, hr, _⟩ |
    ⟨v, a, e, hr, _⟩ | ⟨v, a, u, e, hr, _⟩ | ⟨v, a, u, m, _, ht⟩
  · rw [hr] at hok; cases hok
  · rw [hr] at hok; cases hok
  · rw [hr] at hok; cases hok
  · rw [hr] at hok; cases hok
  · rw [hr] at hok; cases hok
  · exact ⟨v, a, u, m, ht⟩

/-- No call is entered while the imports are being evaluated. -/
theorem call_not_mem_interrupted {V E : Type} (ds : List ImportDecl) (k : Nat) (e : E)
    (c : Call V) : Event.call c ∉ (ds.take k).map Event.evaluated ++ [Event.threw e] := by
  intro hc
  simp only [List.mem_append, List.mem_map, List.mem_singleton] at hc
  rcases hc with ⟨d, _, hd⟩ | hc
  · cases hd
  · cases hc

/-- The check `List.any` is sound for `Occurs`. -/
theorem occurs_of_any {α : Type} (p : α → Bool) (t : List α) (hb : t.any p = true) :
    Occurs p t := by
  simpa [Occurs] using hb

/-- The only option object ever passed to `createVuetify` is the literal. -/
theorem configurations_main {S V E : Type} (icons : IconSetModule V) (h : Host S V E) (s : S) :
    configurations (main icons h s).trace = [] ∨
    configurations (main icons h s).trace = [vuetifyOptions icons] := by
  rcases main_trace_cases icons h s with ⟨k, e, hk, _, ht⟩ | ⟨e, _, ht⟩ | ⟨v, e, _, ht⟩ |
    ⟨v, a, e, _, ht⟩ | ⟨v, a, u, e, _, ht⟩ | ⟨v, a, u, m, _, ht⟩
  · left
    rw [ht]
    simp [imports] at hk
    interval_cases k <;> rfl
  all_goals right; rw [ht]; rfl

/-- Any option object passed to `createVuetify` is the literal. -/
theorem eq_of_mem_configurations {S V E : Type} (icons : IconSetModule V) (h : Host S V E)
    (s : S) (o : VuetifyOptions V) (ho : o ∈ configurations (main icons h s).trace) :
    o = vuetifyOptions icons := by
  rcases configurations_main icons h s with hc | hc
  · rw [hc] at ho; cases ho
  · rw [hc] at ho; simpa using ho

/-- In a trace that ends with a throw and has none before, a throw found at
any position is that last event. -/
theorem threw_is_last {V E : Type} (l : List (Event V E)) (e0 : E)
    (hl : l.all (fun x => !x.isThrew) = true) (j : Nat) (e : E)
    (hj : (l ++ [Event.threw e0])[j]? = some (Event.threw e)) :
    e = e0 ∧ (l ++ [Event.threw e0]).length = j + 1 := by
  rcases Nat.lt_or_ge j l.length with hlt | hge
  · rw [List.getElem?_append_left hlt] at hj
    have hm := List.getElem?_mem hj
    rw [List.all_eq_true] at hl
    have := hl _ hm
    simp [Event.isThrew] at this
  · rw [List.getElem?_append_right hge] at hj
    rcases Nat.eq_zero_or_pos (j - l.length) with h0 | hpos
    · rw [h0] at hj
      simp at hj
      refine ⟨hj.symm, ?_⟩
      simp
      omega
    · obtain ⟨n, hn⟩ := Nat.exists_eq_succ_of_ne_zero (Nat.pos_iff_ne_zero.mp hpos)
      rw [hn] at hj
      simp at hj

/-- Evaluated imports are not throws. -/
theorem all_not_threw_interrupted {V E : Type} (ds : List ImportDecl) :
    (ds.map (Event.evaluated : ImportDecl → Event V E)).all (fun x => !x.isThrew) = true := by
  simp [List.all_eq_true, Event.isThrew]

/-- C1: in every run of `main.js`, each of the three stylesheet registrations
(`"./styles.css"`, `"vuetify/styles"`, `"@mdi/font/css/materialdesignicons.css"`)
comes strictly before the call of `createVuetify`, and the call of
`createVuetify` comes strictly before the call of `mount`; in a run that
completes, all five events occur. -/
theorem stylesheets_before_createVuetify_before_mount {S V E : Type}
    (icons : IconSetModule V) (h : Host S V E) (s : S) :
    Before (Event.isRegistration "./styles.css") Event.isCreateVuetify
      (main icons h s).trace ∧
    Before (Event.isRegistration "vuetify/styles") Event.isCreateVuetify
      (main icons h s).trace ∧
    Before (Event.isRegistration "@mdi/font/css/materialdesignicons.css")
      Event.isCreateVuetify (main icons h s).trace ∧
    Before Event.isCreateVuetify Event.isMount (main icons h s).trace ∧
    ((main icons h s).result = .ok () →
      Occurs (Event.isRegistration "./styles.css") (main icons h s).trace ∧
      Occurs (Event.isRegistration "vuetify/styles") (main icons h s).trace ∧
      Occurs (Event.isRegistration "@mdi/font/css/materialdesignicons.css")
        (main icons h s).trace ∧
      Occurs Event.isCreateVuetify (main icons h s).trace ∧
      Occurs Event.isMount (main icons h s).trace) := by
  refine ⟨?_, ?_, ?_, ?_, ?_⟩
  · apply before_of_beforeB
    apply trace_check icons h s (beforeB _ _)
    · intro k e hk
      simp [imports] at hk
      interval_cases k <;> rfl
    all_goals intros; rfl
  · apply before_of_beforeB
    apply trace_check icons h s (beforeB _ _)
    · intro k e hk
      simp [imports] at hk
      interval_cases k <;> rfl
    all_goals intros; rfl
  · apply before_of_beforeB
    apply trace_check icons h s (beforeB _ _)
    · intro k e hk
      simp [imports] at hk
      interval_cases k <;> rfl
    all_goals intros; rfl
  · apply before_of_beforeB
    apply trace_check icons h s (beforeB _ _)
    · intro k e hk
      simp [imports] at hk
      interval_cases k <;> rfl
    all_goals intros; rfl
  · intro hok
    obtain ⟨v, a, u, m, ht⟩ := trace_of_ok icons h s hok
    rw [ht]
    refine ⟨?_, ?_, ?_, ?_, ?_⟩ <;> exact occurs_of_any _ _ rfl

/-- C1, on a sample: on a page where every step succeeds the run completes and
the call of `mount` occurs. -/
theorem stylesheets_before_createVuetify_before_mount_witness :
    (main sampleIcons pageHost []).result = .ok () ∧
    Occurs Event.isMount (main sampleIcons pageHost []).trace :=
  ⟨rfl, ((stylesheets_before_createVuetify_before_mount sampleIcons pageHost []).2.2.2.2
    rfl).2.2.2.2⟩

/-- C2: in every run the body's steps come in the order: object literal built,
`createVuetify` entered with that very object, `createApp` entered, `use`
entered, `mount` entered; every call entered is completed by the next event,
so no step starts while the previous one is pending; and a run that completes
has exactly the nominal trace. -/
theorem body_steps_in_order {S V E : Type}
    (icons : IconSetModule V) (h : Host S V E) (s : S) :
    Before Event.isBuilt Event.isCreateVuetify (main icons h s).trace ∧
    Before Event.isCreateVuetify Event.isCreateApp (main icons h s).trace ∧
    Before Event.isCreateApp Event.isUse (main icons h s).trace ∧
    Before Event.isUse Event.isMount (main icons h s).trace ∧
    CallsComplete (main icons h s).trace ∧
    (∀ o, Event.call (.createVuetify o) ∈ (main icons h s).trace →
      ∃ before after, (main icons h s).trace =
        before ++ [.built o, .call (.createVuetify o)] ++ after) ∧
    ((main icons h s).result = .ok () →
      ∃ vuetify app installed mounted,
        (main icons h s).trace = script icons h.App vuetify app installed mounted) := by
  refine ⟨?_, ?_, ?_, ?_, ?_, ?_, trace_of_ok icons h s⟩
  · apply before_of_beforeB
    apply trace_check icons h s (beforeB _ _)
    · intro k e hk
      simp [imports] at hk
      interval_cases k <;> rfl
    all_goals intros; rfl
  · apply before_of_beforeB
    apply trace_check icons h s (beforeB _ _)
    · intro k e hk
      simp [imports] at hk
      interval_cases k <;> rfl
    all_goals intros; rfl
  · apply before_of_beforeB
    apply trace_check icons h s (beforeB _ _)
    · intro k e hk
      simp [imports] at hk
      interval_cases k <;> rfl
    all_goals intros; rfl
  · apply before_of_beforeB
    apply trace_check icons h s (beforeB _ _)
    · intro k e hk
      simp [imports] at hk
      interval_cases k <;> rfl
    all_goals intros; rfl
  · apply callsComplete_of_callsCompleteB
    apply trace_check icons h s callsCompleteB
    · intro k e hk
      simp [imports] at hk
      interval_cases k <;> rfl
    all_goals intros; rfl
  · intro o ho
    rcases main_trace_cases icons h s with ⟨k, e, hk, _, ht⟩ | ⟨e, _, ht⟩ | ⟨v, e, _, ht⟩ |
      ⟨v, a, e, _, ht⟩ | ⟨v, a, u, e, _, ht⟩ | ⟨v, a, u, m, _, ht⟩
    · rw [ht] at ho
      exact absurd ho (call_not_mem_interrupted _ _ _ _)
    · rw [ht] at ho ⊢
      simp at ho
      subst ho
      exact ⟨imports.map .evaluated, [.threw e], by simp⟩
    · rw [ht] at ho ⊢
      simp at ho
      subst ho
      exact ⟨imports.map .evaluated, [.returned v, .call (.createApp h.App), .threw e], by simp⟩
    · rw [ht] at ho ⊢
      simp at ho
      subst ho
      exact ⟨imports.map .evaluated, [.returned v, .call (.createApp h.App), .returned a, .call (.use a v),
        .threw e], by simp⟩
    · rw [ht] at ho ⊢
      simp at ho
      subst ho
      exact ⟨imports.map .evaluated, [.returned v, .call (.createApp h.App), .returned a, .call (.use a v),
        .returned u, .call (.mount u "#app"), .threw e], by simp⟩
    · rw [ht] at ho ⊢
      simp [script] at ho
      subst ho
      exact ⟨imports.map .evaluated, [.returned v, .call (.createApp h.App), .returned a, .call (.use a v),
        .returned u, .call (.mount u "#app"), .returned m], by simp [script]⟩

/-- C2, on a sample: on a page where every step succeeds the trace is the
nominal one. -/
theorem body_steps_in_order_witness :
    (main sampleIcons pageHost []).result = .ok () ∧
    ∃ vuetify app installed mounted,
      (main sampleIcons pageHost []).trace =
        script sampleIcons pageHost.App vuetify app installed mounted :=
  ⟨rfl, (body_steps_in_order sampleIcons pageHost []).2.2.2.2.2.2 rfl⟩

/-- C3: the option object passed to `createVuetify` does not depend on the
host: whatever the two hosts do and whatever states they start from (their
state and error types may even differ), the `theme` field is the same with
`defaultTheme` equal to `"dark"`, the default icon set name and the keys of
`icons.sets` are the same, and with the same icon-set module linked in the
whole objects are equal. -/
theorem configuration_same_in_every_run {S1 S2 V E1 E2 : Type}
    (icons1 icons2 : IconSetModule V)
    (h1 : Host S1 V E1) (h2 : Host S2 V E2) (s1 : S1) (s2 : S2) (o1 o2 : VuetifyOptions V)
    (m1 : o1 ∈ configurations (main icons1 h1 s1).trace)
    (m2 : o2 ∈ configurations (main icons2 h2 s2).trace) :
    o1.theme = o2.theme ∧
    o1.theme.defaultTheme = "dark" ∧ o2.theme.defaultTheme = "dark" ∧
    o1.icons.defaultSet = o2.icons.defaultSet ∧
    o1.icons.sets.map Prod.fst = o2.icons.sets.map Prod.fst ∧
    (icons1 = icons2 → o1 = o2) := by
  have e1 := eq_of_mem_configurations icons1 h1 s1 o1 m1
  have e2 := eq_of_mem_configurations icons2 h2 s2 o2 m2
  subst e1 e2
  refine ⟨rfl, rfl, rfl, rfl, rfl, ?_⟩
  intro hi
  rw [hi]

/-- C3, on a sample: a page on which everything succeeds and a page with a
different document and no mount target receive the same option object. -/
theorem configuration_same_in_every_run_witness :
    vuetifyOptions sampleIcons ∈ configurations (main sampleIcons pageHost []).trace ∧
    vuetifyOptions sampleIcons ∈
      configurations (main sampleIcons bareHost [("#sidebar", 7)]).trace ∧
    (vuetifyOptions sampleIcons).theme.defaultTheme = "dark" ∧
    vuetifyOptions sampleIcons = vuetifyOptions sampleIcons :=
  ⟨by decide, by decide,
    (configuration_same_in_every_run sampleIcons sampleIcons pageHost bareHost []
      [("#sidebar", 7)] (vuetifyOptions sampleIcons) (vuetifyOptions sampleIcons)
      (by decide) (by decide)).2.1,
    (configuration_same_in_every_run sampleIcons sampleIcons pageHost bareHost []
      [("#sidebar", 7)] (vuetifyOptions sampleIcons) (vuetifyOptions sampleIcons)
      (by decide) (by decide)).2.2.2.2.2 rfl⟩

/-- C4: in the option object passed to `createVuetify`, `icons.defaultSet` is
`"mdi"`, looking that name up in `icons.sets` yields the imported `mdi`, and
`"mdi"` is the only key of `icons.sets`. -/
theorem default_icon_set_resolves {S V E : Type} (icons : IconSetModule V) (h : Host S V E)
    (s : S) (o : VuetifyOptions V) (ho : o ∈ configurations (main icons h s).trace) :
    o.icons.defaultSet = "mdi" ∧
    o.icons.sets.lookup o.icons.defaultSet = some icons.mdi ∧
    o.icons.sets.map Prod.fst = ["mdi"] := by
  have e := eq_of_mem_configurations icons h s o ho
  subst e
  exact ⟨rfl, rfl, rfl⟩

/-- C4, on a sample. -/
theorem default_icon_set_resolves_witness :
    vuetifyOptions sampleIcons ∈ configurations (main sampleIcons pageHost []).trace ∧
    ((vuetifyOptions sampleIcons).icons.defaultSet = "mdi" ∧
      (vuetifyOptions sampleIcons).icons.sets.lookup
        (vuetifyOptions sampleIcons).icons.defaultSet = some sampleIcons.mdi ∧
      (vuetifyOptions sampleIcons).icons.sets.map Prod.fst = ["mdi"]) :=
  ⟨by decide, default_icon_set_resolves sampleIcons pageHost [] _ (by decide)⟩

/-- C5: whatever values `aliases` and `mdi` the icon-set module supplies, the
option object passed to `createVuetify` holds that `aliases` under
`icons.aliases` and that `mdi` under `icons.sets.mdi`, unchanged; and the
literal is parametric in both: renaming the supplied values and then building
the object is the same as building it and then renaming inside it. -/
theorem icon_values_passed_unchanged {S V E : Type} (icons : IconSetModule V)
    (h : Host S V E) (s : S) (o : VuetifyOptions V)
    (ho : o ∈ configurations (main icons h s).trace) :
    o.icons.aliases = icons.aliases ∧
    o.icons.sets = [("mdi", icons.mdi)] ∧
    ∀ (W : Type) (f : V → W),
      o.map f = vuetifyOptions (icons.map f) := by
  have e := eq_of_mem_configurations icons h s o ho
  subst e
  exact ⟨rfl, rfl, fun _ _ => rfl⟩

/-- C5, on a sample: with `aliases` 10 and `mdi` 11 supplied, the object
passed holds 10 and 11, and renaming values by doubling commutes with building
the object. -/
theorem icon_values_passed_unchanged_witness :
    vuetifyOptions sampleIcons ∈ configurations (main sampleIcons bareHost []).trace ∧
    (vuetifyOptions sampleIcons).icons.aliases = 10 ∧
    (vuetifyOptions sampleIcons).icons.sets = [("mdi", 11)] ∧
    (vuetifyOptions sampleIcons).map (fun n => 2 * n) =
      vuetifyOptions (sampleIcons.map fun n => 2 * n) :=
  ⟨by decide,
    (icon_values_passed_unchanged sampleIcons bareHost [] _ (by decide)).1,
    (icon_values_passed_unchanged sampleIcons bareHost [] _ (by decide)).2.1,
    (icon_values_passed_unchanged sampleIcons bareHost [] _ (by decide)).2.2 Nat
      (fun n => 2 * n)⟩

/-- C6: in every run no step is repeated (the literal is built, and each of
`createVuetify`, `createApp`, `use`, `mount` is entered, at most once) and
`createApp` is only ever called with the root component `App`; in a run that
completes each of the five happens exactly once, with exactly one option
object. -/
theorem each_step_exactly_once {S V E : Type}
    (icons : IconSetModule V) (h : Host S V E) (s : S) :
    ((main icons h s).trace.countP Event.isBuilt ≤ 1 ∧
      (main icons h s).trace.countP Event.isCreateVuetify ≤ 1 ∧
      (main icons h s).trace.countP Event.isCreateApp ≤ 1 ∧
      (main icons h s).trace.countP Event.isUse ≤ 1 ∧
      (main icons h s).trace.countP Event.isMount ≤ 1) ∧
    (∀ root, Event.call (.createApp root) ∈ (main icons h s).trace → root = h.App) ∧
    ((main icons h s).result = .ok () →
      (main icons h s).trace.countP Event.isBuilt = 1 ∧
      (main icons h s).trace.countP Event.isCreateVuetify = 1 ∧
      (main icons h s).trace.countP Event.isCreateApp = 1 ∧
      (main icons h s).trace.countP Event.isUse = 1 ∧
      (main icons h s).trace.countP Event.isMount = 1 ∧
      configurations (main icons h s).trace = [vuetifyOptions icons]) := by
  refine ⟨⟨?_, ?_, ?_, ?_, ?_⟩, ?_, ?_⟩
  · apply of_decide_eq_true
    apply trace_check icons h s (fun t => decide (t.countP Event.isBuilt ≤ 1))
    · intro k e hk
      simp [imports] at hk
      interval_cases k <;> rfl
    all_goals intros; rfl
  · apply of_decide_eq_true
    apply trace_check icons h s (fun t => decide (t.countP Event.isCreateVuetify ≤ 1))
    · intro k e hk
      simp [imports] at hk
      interval_cases k <;> rfl
    all_goals intros; rfl
  · apply of_decide_eq_true
    apply trace_check icons h s (fun t => decide (t.countP Event.isCreateApp ≤ 1))
    · intro k e hk
      simp [imports] at hk
      interval_cases k <;> rfl
    all_goals intros; rfl
  · apply of_decide_eq_true
    apply trace_check icons h s (fun t => decide (t.countP Event.isUse ≤ 1))
    · intro k e hk
      simp [imports] at hk
      interval_cases k <;> rfl
    all_goals intros; rfl
  · apply of_decide_eq_true
    apply trace_check icons h s (fun t => decide (t.countP Event.isMount ≤ 1))
    · intro k e hk
      simp [imports] at hk
      interval_cases k <;> rfl
    all_goals intros; rfl
  · intro root hroot
    rcases main_trace_cases icons h s with ⟨k, e, hk, _, ht⟩ | ⟨e, _, ht⟩ | ⟨v, e, _, ht⟩ |
      ⟨v, a, e, _, ht⟩ | ⟨v, a, u, e, _, ht⟩ | ⟨v, a, u, m, _, ht⟩
    · rw [ht] at hroot
      exact absurd hroot (call_not_mem_interrupted _ _ _ _)
    all_goals
      rw [ht] at hroot
      simp [script] at hroot
      try exact hroot
  · intro hok
    obtain ⟨v, a, u, m, ht⟩ := trace_of_ok icons h s hok
    rw [ht]
    exact ⟨rfl, rfl, rfl, rfl, rfl, rfl⟩

/-- C6, on a sample: on a page where every step succeeds `mount` is entered
exactly once. -/
theorem each_step_exactly_once_witness :
    (main sampleIcons pageHost []).result = .ok () ∧
    (main sampleIcons pageHost []).trace.countP Event.isMount = 1 :=
  ⟨rfl, ((each_step_exactly_once sampleIcons pageHost []).2.2 rfl).2.2.2.2.1⟩

/-- C7: whenever `use` is entered, its plugin argument is the value that the
call of `createVuetify` on the literal of lines 11-22 returned and its
receiver is the value that `createApp(App)` returned; whenever `mount` is
entered, its receiver is the value that this call of `use` returned; and
`createVuetify` is entered at most once, so there is no second adapter. -/
theorem adapter_installed_then_mounted {S V E : Type}
    (icons : IconSetModule V) (h : Host S V E) (s : S) :
    (∀ receiver plugin, Event.call (.use receiver plugin) ∈ (main icons h s).trace →
      ∃ before after, (main icons h s).trace =
        before ++
          [.call (.createVuetify (vuetifyOptions icons)), .returned plugin,
            .call (.createApp h.App), .returned receiver,
            .call (.use receiver plugin)] ++ after) ∧
    (∀ receiver selector, Event.call (.mount receiver selector) ∈ (main icons h s).trace →
      ∃ before vuetify app after, (main icons h s).trace =
        before ++
          [.call (.createVuetify (vuetifyOptions icons)), .returned vuetify,
            .call (.createApp h.App), .returned app,
            .call (.use app vuetify), .returned receiver,
            .call (.mount receiver selector)] ++ after) ∧
    (main icons h s).trace.countP Event.isCreateVuetify ≤ 1 := by
  refine ⟨?_, ?_, ?_⟩
  · intro receiver plugin hmem
    rcases main_trace_cases icons h s with ⟨k, e, hk, _, ht⟩ | ⟨e, _, ht⟩ | ⟨v, e, _, ht⟩ |
      ⟨v, a, e, _, ht⟩ | ⟨v, a, u, e, _, ht⟩ | ⟨v, a, u, m, _, ht⟩
    · rw [ht] at hmem
      exact absurd hmem (call_not_mem_interrupted _ _ _ _)
    · rw [ht] at hmem
      simp at hmem
    · rw [ht] at hmem
      simp at hmem
    · rw [ht] at hmem ⊢
      simp at hmem
      obtain ⟨rfl, rfl⟩ := hmem
      exact ⟨imports.map .evaluated ++ [.built (vuetifyOptions icons)], [.threw e],
        by simp⟩
    · rw [ht] at hmem ⊢
      simp at hmem
      obtain ⟨rfl, rfl⟩ := hmem
      exact ⟨imports.map .evaluated ++ [.built (vuetifyOptions icons)],
        [.returned u, .call (.mount u "#app"), .threw e], by simp⟩
    · rw [ht] at hmem ⊢
      simp [script] at hmem
      obtain ⟨rfl, rfl⟩ := hmem
      exact ⟨imports.map .evaluated ++ [.built (vuetifyOptions icons)],
        [.returned u, .call (.mount u "#app"), .returned m], by simp [script]⟩
  · intro receiver selector hmem
    rcases main_trace_cases icons h s with ⟨k, e, hk, _, ht⟩ | ⟨e, _, ht⟩ | ⟨v, e, _, ht⟩ |
      ⟨v, a, e, _, ht⟩ | ⟨v, a, u, e, _, ht⟩ | ⟨v, a, u, m, _, ht⟩
    · rw [ht] at hmem
      exact absurd hmem (call_not_mem_interrupted _ _ _ _)
    · rw [ht] at hmem
      simp at hmem
    · rw [ht] at hmem
      simp at hmem
    · rw [ht] at hmem
      simp at hmem
    · rw [ht] at hmem ⊢
      simp at hmem
      obtain ⟨rfl, rfl⟩ := hmem
      exact ⟨imports.map .evaluated ++ [.built (vuetifyOptions icons)], v, a,
        [.threw e], by simp⟩
    · rw [ht] at hmem ⊢
      simp [script] at hmem
      obtain ⟨rfl, rfl⟩ := hmem
      exact ⟨imports.map .evaluated ++ [.built (vuetifyOptions icons)], v, a,
        [.returned m], by simp [script]⟩
  · apply of_decide_eq_true
    apply trace_check icons h s (fun t => decide (t.countP Event.isCreateVuetify ≤ 1))
    · intro k e hk
      simp [imports] at hk
      interval_cases k <;> rfl
    all_goals intros; rfl

/-- C7, on a sample: on a page where `createVuetify` returns 2 and `createApp`
returns 3, `use` is entered on 3 with plugin 2. -/
theorem adapter_installed_then_mounted_witness :
    Event.call (.use 3 2) ∈ (main sampleIcons pageHost []).trace ∧
    ∃ before after, (main sampleIcons pageHost []).trace =
      before ++
        [.call (.createVuetify (vuetifyOptions sampleIcons)), .returned 2,
          .call (.createApp pageHost.App), .returned 3,
          .call (.use 3 2)] ++ after :=
  ⟨by decide, (adapter_installed_then_mounted sampleIcons pageHost []).1 3 2 (by decide)⟩

/-- C9: if `createVuetify` throws `e`, the run ends with that same `e`, right
after that call, and `createApp`, `use` and `mount` are never entered; in any
run a throw is the last event and its value is the result of the run, and a
run that fails ends with the throw of its error; and `mount` is entered only
after every import was evaluated and `createVuetify`, `createApp` and `use`
all returned. -/
theorem failure_aborts_bootstrap {S V E : Type}
    (icons : IconSetModule V) (h : Host S V E) (s : S) :
    (∀ e s1, (importAll h imports s).result = .ok () →
      h.createVuetify (vuetifyOptions icons) (importAll h imports s).state = (.error e, s1) →
      (main icons h s).result = .error e ∧
      (main icons h s).state = s1 ∧
      (main icons h s).trace = imports.map .evaluated ++
        [.built (vuetifyOptions icons), .call (.createVuetify (vuetifyOptions icons)),
          .threw e] ∧
      (main icons h s).trace.countP Event.isCreateApp = 0 ∧
      (main icons h s).trace.countP Event.isUse = 0 ∧
      (main icons h s).trace.countP Event.isMount = 0) ∧
    (∀ (j : Nat) (e : E), (main icons h s).trace[j]? = some (.threw e) →
      (main icons h s).result = .error e ∧ (main icons h s).trace.length = j + 1) ∧
    (∀ e, (main icons h s).result = .error e →
      (main icons h s).trace.getLast? = some (.threw e)) ∧
    (∀ receiver selector, Event.call (.mount receiver selector) ∈ (main icons h s).trace →
      ∃ vuetify app after, (main icons h s).trace =
        imports.map .evaluated ++
          [.built (vuetifyOptions icons),
            .call (.createVuetify (vuetifyOptions icons)), .returned vuetify,
            .call (.createApp h.App), .returned app,
            .call (.use app vuetify), .returned receiver,
            .call (.mount receiver selector)] ++ after) := by
  refine ⟨?_, ?_, ?_, ?_⟩
  · intro e s1 hok hcv
    rcases main_cases icons h s with ⟨k, e0, hk, hr, _, _, _⟩ | ⟨_, hm⟩
    · rw [hr] at hok; cases hok
    · rcases body_cases icons h (importAll h imports s).state with
        ⟨e1, t1, h1, hb⟩ | ⟨v, t1, e1, t2, h1, _, _⟩ |
        ⟨v, t1, a, t2, e1, t3, h1, _, _, _⟩ |
        ⟨v, t1, a, t2, u, t3, e1, t4, h1, _, _, _, _⟩ |
        ⟨v, t1, a, t2, u, t3, m, t4, h1, _, _, _, _⟩
      · rw [hcv] at h1
        simp only [Prod.mk.injEq, Except.error.injEq] at h1
        obtain ⟨rfl, rfl⟩ := h1
        rw [hm, hb]
        exact ⟨rfl, rfl, rfl, rfl, rfl, rfl⟩
      all_goals
        rw [hcv] at h1
        simp at h1
  · intro j e hj
    rcases main_trace_cases icons h s with ⟨k, e0, hk, hr, ht⟩ | ⟨e0, hr, ht⟩ |
      ⟨v, e0, hr, ht⟩ | ⟨v, a, e0, hr, ht⟩ | ⟨v, a, u, e0, hr, ht⟩ | ⟨v, a, u, m, _, ht⟩
    · rw [ht] at hj ⊢
      obtain ⟨rfl, hlen⟩ := threw_is_last _ e0 (all_not_threw_interrupted _) j e hj
      exact ⟨hr, hlen⟩
    · have ht2 : (main icons h s).trace = (imports.map .evaluated ++
          [.built (vuetifyOptions icons), .call (.createVuetify (vuetifyOptions icons))]) ++
          [.threw e0] := by rw [ht]; simp
      rw [ht2] at hj ⊢
      obtain ⟨rfl, hlen⟩ := threw_is_last _ e0 (by rfl) j e hj
      exact ⟨hr, hlen⟩
    · have ht2 : (main icons h s).trace = (imports.map .evaluated ++
          [.built (vuetifyOptions icons), .call (.createVuetify (vuetifyOptions icons)),
            .returned v, .call (.createApp h.App)]) ++ [.threw e0] := by rw [ht]; simp
      rw [ht2] at hj ⊢
      obtain ⟨rfl, hlen⟩ := threw_is_last _ e0 (by rfl) j e hj
      exact ⟨hr, hlen⟩
    · have ht2 : (main icons h s).trace = (imports.map .evaluated ++
          [.built (vuetifyOptions icons), .call (.createVuetify (vuetifyOptions icons)),
            .returned v, .call (.createApp h.App), .returned a, .call (.use a v)]) ++
          [.threw e0] := by rw [ht]; simp
      rw [ht2] at hj ⊢
      obtain ⟨rfl, hlen⟩ := threw_is_last _ e0 (by rfl) j e hj
      exact ⟨hr, hlen⟩
    · have ht2 : (main icons h s).trace = (imports.map .evaluated ++
          [.built (vuetifyOptions icons), .call (.createVuetify (vuetifyOptions icons)),
            .returned v, .call (.createApp h.App), .returned a, .call (.use a v),
            .returned u, .call (.mount u "#app")]) ++ [.threw e0] := by rw [ht]; simp
      rw [ht2] at hj ⊢
      obtain ⟨rfl, hlen⟩ := threw_is_last _ e0 (by rfl) j e hj
      exact ⟨hr, hlen⟩
    · rw [ht] at hj
      have hmem := List.getElem?_mem hj
      simp [script] at hmem
  · intro e he
    rcases main_trace_cases icons h s with ⟨k, e0, hk, hr, ht⟩ | ⟨e0, hr, ht⟩ |
      ⟨v, e0, hr, ht⟩ | ⟨v, a, e0, hr, ht⟩ | ⟨v, a, u, e0, hr, ht⟩ | ⟨v, a, u, m, hr, ht⟩
    all_goals
      rw [hr] at he
      cases he <;> (rw [ht]; simp)
  · intro receiver selector hmem
    rcases main_trace_cases icons h s with ⟨k, e, hk, _, ht⟩ | ⟨e, _, ht⟩ | ⟨v, e, _, ht⟩ |
      ⟨v, a, e, _, ht⟩ | ⟨v, a, u, e, _, ht⟩ | ⟨v, a, u, m, _, ht⟩
    · rw [ht] at hmem
      exact absurd hmem (call_not_mem_interrupted _ _ _ _)
    · rw [ht] at hmem
      simp at hmem
    · rw [ht] at hmem
      simp at hmem
    · rw [ht] at hmem
      simp at hmem
    · rw [ht] at hmem ⊢
      simp at hmem
      obtain ⟨rfl, rfl⟩ := hmem
      exact ⟨v, a, [.threw e], by simp⟩
    · rw [ht] at hmem ⊢
      simp [script] at hmem
      obtain ⟨rfl, rfl⟩ := hmem
      exact ⟨v, a, [.returned m], by simp [script]⟩

/-- C9, on a sample: on a host whose `createVuetify` throws, the run fails
with that very error and `mount` is never entered. -/
theorem failure_aborts_bootstrap_witness :
    (importAll brokenHost imports []).result = .ok () ∧
    brokenHost.createVuetify (vuetifyOptions sampleIcons)
      (importAll brokenHost imports []).state = (.error "vuetify failed", []) ∧
    (main sampleIcons brokenHost []).result = .error "vuetify failed" ∧
    (main sampleIcons brokenHost []).trace.countP Event.isMount = 0 :=
  ⟨rfl, rfl,
    ((failure_aborts_bootstrap sampleIcons brokenHost []).1 "vuetify failed" [] rfl rfl).1,
    ((failure_aborts_bootstrap sampleIcons brokenHost []).1 "vuetify failed" [] rfl
      rfl).2.2.2.2.2⟩

/-- C10: the side-effect-only imports of `main.js` are exactly the three
stylesheets `"./styles.css"`, `"vuetify/styles"` and
`"@mdi/font/css/materialdesignicons.css"`; in every run the stylesheets
registered are an initial part of that list, so none other is ever
registered; and after a run that completes all three are registered. -/
theorem three_stylesheets_registered {S V E : Type}
    (icons : IconSetModule V) (h : Host S V E) (s : S) :
    ((imports.filter fun d => d.bindings.isEmpty).map fun d => d.specifier) =
      ["./styles.css", "vuetify/styles", "@mdi/font/css/materialdesignicons.css"] ∧
    (registered (main icons h s).trace = [] ∨
      registered (main icons h s).trace = ["./styles.css"] ∨
      registered (main icons h s).trace = ["./styles.css", "vuetify/styles"] ∨
      registered (main icons h s).trace =
        ["./styles.css", "vuetify/styles", "@mdi/font/css/materialdesignicons.css"]) ∧
    ((main icons h s).result = .ok () →
      registered (main icons h s).trace =
        ["./styles.css", "vuetify/styles", "@mdi/font/css/materialdesignicons.css"]) := by
  refine ⟨rfl, ?_, ?_⟩
  · rcases main_trace_cases icons h s with ⟨k, e, hk, _, ht⟩ | ⟨e, _, ht⟩ | ⟨v, e, _, ht⟩ |
      ⟨v, a, e, _, ht⟩ | ⟨v, a, u, e, _, ht⟩ | ⟨v, a, u, m, _, ht⟩
    · rw [ht]
      simp [imports] at hk
      interval_cases k
      · exact Or.inl rfl
      · exact Or.inr (Or.inl rfl)
      · exact Or.inr (Or.inr (Or.inl rfl))
      · exact Or.inr (Or.inr (Or.inl rfl))
      · exact Or.inr (Or.inr (Or.inl rfl))
      · exact Or.inr (Or.inr (Or.inl rfl))
      · exact Or.inr (Or.inr (Or.inr rfl))
    all_goals
      rw [ht]
      exact Or.inr (Or.inr (Or.inr rfl))
  · intro hok
    obtain ⟨v, a, u, m, ht⟩ := trace_of_ok icons h s hok
    rw [ht]
    rfl

/-- C10, on a sample: after a run that completes the three stylesheets are
registered. -/
theorem three_stylesheets_registered_witness :
    (main sampleIcons pageHost []).result = .ok () ∧
    registered (main sampleIcons pageHost []).trace =
      ["./styles.css", "vuetify/styles", "@mdi/font/css/materialdesignicons.css"] :=
  ⟨rfl, (three_stylesheets_registered sampleIcons pageHost []).2.2 rfl⟩

end Precon
